import Mathlib

/-!
Verification development for the Lit client-side coordinator
(LitNodeClientNodeJs).  The definitions below are a shallow embedding of
the TypeScript source: pure functions become Lean functions, JavaScript
undefined/null becomes Option, thrown errors become Except, timestamps
are modelled as natural numbers of milliseconds since the epoch, and
external collaborators (SIWE parsing and signature validation, SHA-256,
nacl signing, JSON parsing of stored strings) are passed in as function
parameters.  Where the behaviour of repository code outside the provided
sources is needed (the ReCap capability object of the auth-helpers
package), the definition is modelled from the specification and marked
as such in its doc comment.
-/

namespace Lit

/-- Ability variants of the capability model (LitAbility). -/
inductive LitAbility where
  | PKPSigning
  | LitActionExecution
  | AccessControlConditionSigning
  | AccessControlConditionDecryption
deriving DecidableEq, Repr

/-- A single ability grant stored for a resource key: either the wildcard
grant added by addAllCapabilitiesForResource, or one specific ability. -/
inductive GrantTag where
  | wildcard
  | one (a : LitAbility)
deriving DecidableEq, Repr

/-- Modelled from the spec: RecapSessionCapabilityObject of the
auth-helpers package (not under the provided sources).  Grants are stored
as a mapping from canonical resource-key strings to a collection of
ability tags. -/
structure RecapObj where
  grants : List (String × List GrantTag)
deriving DecidableEq, Repr

/-- Modelled from the spec: verifyCapabilitiesForResource returns true iff
either a wildcard grant or an exact match is present for the resource key. -/
def RecapObj.verifyCapabilitiesForResource (o : RecapObj) (r : String)
    (a : LitAbility) : Bool :=
  o.grants.any fun g =>
    g.1 == r && g.2.any fun t => t == GrantTag.wildcard || t == GrantTag.one a

/-- The empty capability object, new RecapSessionCapabilityObject({}, []). -/
def RecapObj.empty : RecapObj := ⟨[]⟩

/-- Modelled from the spec: addAllCapabilitiesForResource records a
wildcard grant for the resource key. -/
def RecapObj.addAllCapabilitiesForResource (o : RecapObj) (r : String) : RecapObj :=
  ⟨o.grants ++ [(r, [GrantTag.wildcard])]⟩

/-- Embeds the static LitNodeClientNodeJs.generateSessionCapabilityObjectWithWildcards:
it builds an empty RecapSessionCapabilityObject and runs the
addAllCapabilitiesForResource loop only when the addAllCapabilities
argument is true; the argument defaults to false (the loop is disabled in
the source, so by default nothing is added). -/
def generateSessionCapabilityObjectWithWildcardsStatic
    (litResources : List String) (addAllCapabilities : Option Bool) : RecapObj :=
  let go := addAllCapabilities.getD false
  if go then
    litResources.foldl RecapObj.addAllCapabilitiesForResource RecapObj.empty
  else
    RecapObj.empty

/-- Embeds the backward-compatibility instance method, which forwards to
the static method without passing the addAllCapabilities flag. -/
def generateSessionCapabilityObjectWithWildcards
    (litResources : List String) : RecapObj :=
  generateSessionCapabilityObjectWithWildcardsStatic litResources none

/-- An AuthSig payload as carried around by the client. -/
structure AuthSigM where
  sig : String
  derivedVia : String
  signedMessage : String
  address : String
  algo : Option String
deriving DecidableEq, Repr

/-- A required (resource, ability) pair (LitResourceAbilityRequest),
with the resource identified by its canonical resource-key string. -/
structure ResourceAbility where
  resource : String
  ability : LitAbility
deriving DecidableEq, Repr

/-- The fields of a parsed SiweMessage that the re-sign predicate reads:
the uri and the resources list (absent resources modelled as none). -/
structure SiweParsedMsg where
  uri : String
  resources : Option (List String)
deriving DecidableEq, Repr

/-- Embeds #checkNeedToResignSessionKey.  The SIWE constructor is the
parameter parseSiwe, the validate call is the parameter validateOk (false
means validation threw), and the auth-helpers decode is the parameter
decodeCap.  Returns true when the cached AuthSig must be re-obtained. -/
def checkNeedToResignSessionKey
    (parseSiwe : String → SiweParsedMsg)
    (validateOk : SiweParsedMsg → String → Bool)
    (decodeCap : String → RecapObj)
    (authSig : AuthSigM) (sessionKeyUri : String)
    (resourceAbilityRequests : List ResourceAbility) : Bool :=
  let m := parseSiwe authSig.signedMessage
  if !(validateOk m authSig.sig) then true
  else if m.uri != sessionKeyUri then true
  else
    match m.resources with
    | none => true
    | some [] => true
    | some (r0 :: _) =>
      let cap := decodeCap r0
      resourceAbilityRequests.any fun ra =>
        !(cap.verifyCapabilitiesForResource ra.resource ra.ability)

/-- Embeds the node-index selection loop of runOnTargetedNodes.  The hash
pipeline for a counter c, BigNumber.from(sha256(str(c) ++ ":" ++ ipfsId)),
is the external parameter h (SHA-256 is an external crypto primitive and
ipfsId is fixed for a fixed code payload); the loop takes the value mod
the number of node urls, keeps it when it is unseen and below the url
count, and advances the counter.  The while loop is given explicit fuel;
each constructor call consumes one loop iteration. -/
def selectLoopCode (h : Nat → Nat) (len k : Nat) :
    Nat → Nat → List Nat → List Nat
  | 0, _, acc => acc
  | fuel + 1, c, acc =>
    if acc.length < k then
      let nodeIndex := h c % len
      let acc' :=
        if nodeIndex ∉ acc ∧ nodeIndex < len then acc ++ [nodeIndex] else acc
      selectLoopCode h len k fuel (c + 1) acc'
    else acc

/-- The selection algorithm exactly as the specification words it: keep
idx when unseen, with no extra bound check. -/
def selectLoopSpec (h : Nat → Nat) (len k : Nat) :
    Nat → Nat → List Nat → List Nat
  | 0, _, acc => acc
  | fuel + 1, c, acc =>
    if acc.length < k then
      let nodeIndex := h c % len
      let acc' := if nodeIndex ∉ acc then acc ++ [nodeIndex] else acc
      selectLoopSpec h len k fuel (c + 1) acc'
    else acc

/-- The caller parameters of runOnTargetedNodes that reach the per-node
request (JsonExecutionSdkParamsTargetNode); sessionSigs maps a node url
to its session signature. -/
structure TargetedParams where
  code : String
  targetNodeRange : Nat
  sessionSigs : List (String × String)
deriving DecidableEq, Repr

/-- A request body for a targeted node: the spread caller params plus an
optional top-level authSig field (absent field modelled as none). -/
structure TargetedReqBody where
  params : TargetedParams
  authSig : Option String
deriving DecidableEq, Repr

/-- Embeds _getSessionSigByUrl: the sessionSigs entry for the url. -/
def getSessionSigByUrl (sigs : List (String × String)) (url : String) :
    Option String :=
  (sigs.find? fun e => e.1 == url).map (·.2)

/-- The reqBody that runOnTargetedNodes composes for a selected node url:
the spread params together with authSig set to that url-specific session
signature. -/
def runOnTargetedNodesReqBody (p : TargetedParams) (url : String) :
    TargetedReqBody :=
  { params := p, authSig := getSessionSigByUrl p.sessionSigs url }

/-- The data that runOnTargetedNodes actually passes to _sendCommandToNode
for a selected node url: the bare params object, which carries no
top-level authSig field (the composed reqBody is never used). -/
def runOnTargetedNodesSentData (p : TargetedParams) (url : String) :
    TargetedReqBody :=
  { params := p, authSig := none }

/-- An Ed25519 session key pair stored as hex strings. -/
structure SessionKeyPair where
  publicKey : String
  secretKey : String
deriving DecidableEq, Repr

/-- Embeds #getSessionKeyUri: the constant LIT_SESSION_KEY_URI prepended
to the session public key. -/
def getSessionKeyUri (publicKey : String) : String :=
  "lit:session:" ++ publicKey

/-- Embeds static getExpiration: 24 hours after the current time.  Times
are milliseconds since the epoch; ISO-8601 formatting is abstracted away
so an expiration is represented by its timestamp. -/
def getExpiration (now : Nat) : Nat := now + 1000 * 60 * 60 * 24

/-- The five-minute offset of the dead default in getSessionSigs. -/
def fiveMinutesMs : Nat := 1000 * 60 * 5

/-- The per-node SessionSigningTemplate exactly as getSessionSigs builds
it: the shared signing template fields plus the node address. -/
structure SessionTemplate where
  sessionKey : String
  resourceAbilityRequests : List ResourceAbility
  capabilities : List AuthSigM
  issuedAt : Nat
  expiration : Nat
  nodeAddress : String
deriving DecidableEq, Repr

/-- A produced session signature map entry value.  Its signedMessage is
the JSON serialisation of the per-node template; the template value is
kept structured here and its JSON form is recovered by jsonOfTemplate. -/
structure SessionSig where
  sig : String
  derivedVia : String
  signedMessage : SessionTemplate
  address : String
  algo : String
deriving DecidableEq, Repr

/-- A minimal JSON value model, used to state what the serialised
signedMessage of a session signature does and does not record. -/
inductive JVal where
  | str (s : String)
  | num (n : Nat)
  | arr (xs : List JVal)
  | obj (fields : List (String × JVal))

/-- Top-level key lookup in a JSON object value. -/
def JVal.lookupKey : JVal → String → Option JVal
  | JVal.obj fields, key => (fields.find? fun f => f.1 == key).map (·.2)
  | _, _ => none

/-- The string tag of an ability as serialised into JSON. -/
def abilityTag : LitAbility → String
  | LitAbility.PKPSigning => "pkp-signing"
  | LitAbility.LitActionExecution => "lit-action-execution"
  | LitAbility.AccessControlConditionSigning => "access-control-condition-signing"
  | LitAbility.AccessControlConditionDecryption => "access-control-condition-decryption"

/-- JSON form of a resource ability request. -/
def jsonOfResourceAbility (ra : ResourceAbility) : JVal :=
  JVal.obj [("resource", JVal.str ra.resource),
            ("ability", JVal.str (abilityTag ra.ability))]

/-- JSON form of an AuthSig. -/
def jsonOfAuthSig (a : AuthSigM) : JVal :=
  JVal.obj ([("sig", JVal.str a.sig),
             ("derivedVia", JVal.str a.derivedVia),
             ("signedMessage", JVal.str a.signedMessage),
             ("address", JVal.str a.address)] ++
    (match a.algo with
     | some al => [("algo", JVal.str al)]
     | none => []))

/-- JSON form of a per-node SessionSigningTemplate, with the keys in the
insertion order that JSON.stringify preserves: sessionKey,
resourceAbilityRequests, capabilities, issuedAt, expiration, nodeAddress. -/
def jsonOfTemplate (t : SessionTemplate) : JVal :=
  JVal.obj
    [("sessionKey", JVal.str t.sessionKey),
     ("resourceAbilityRequests",
       JVal.arr (t.resourceAbilityRequests.map jsonOfResourceAbility)),
     ("capabilities", JVal.arr (t.capabilities.map jsonOfAuthSig)),
     ("issuedAt", JVal.num t.issuedAt),
     ("expiration", JVal.num t.expiration),
     ("nodeAddress", JVal.str t.nodeAddress)]

/-- Embeds the capability-chain composition of getSessionSigs:
capabilityAuthSigs, then the capacity delegation AuthSig when present,
then the wallet AuthSig last. -/
def composeCapabilities (capabilityAuthSigs : List AuthSigM)
    (capacityDelegationAuthSig : Option AuthSigM)
    (authSig : AuthSigM) : List AuthSigM :=
  match capacityDelegationAuthSig with
  | some c => capabilityAuthSigs ++ [c, authSig]
  | none => capabilityAuthSigs ++ [authSig]

/-- Embeds the per-node signing loop of getSessionSigs: for every
connected node address, extend the shared template with that node
address, sign it with the session secret key (nacl.sign.detached is the
external parameter signDetached), and record the map entry. -/
def buildSessionSigs (signDetached : String → SessionTemplate → String)
    (sessionKey : SessionKeyPair)
    (resourceAbilityRequests : List ResourceAbility)
    (capabilities : List AuthSigM) (issuedAt expiration : Nat)
    (nodes : List String) : List (String × SessionSig) :=
  nodes.map fun nodeAddress =>
    let toSign : SessionTemplate :=
      { sessionKey := sessionKey.publicKey
        resourceAbilityRequests := resourceAbilityRequests
        capabilities := capabilities
        issuedAt := issuedAt
        expiration := expiration
        nodeAddress := nodeAddress }
    (nodeAddress,
      { sig := signDetached sessionKey.secretKey toSign
        derivedVia := "litSessionSignViaNacl"
        signedMessage := toSign
        address := sessionKey.publicKey
        algo := "ed25519" })

/-- Embeds the tail of getSessionSigs, from expiration resolution to the
produced SessionSigsMap.  The caller expiration (paramsExpiration, none
when not supplied or empty) is first defaulted with getExpiration via the
logical-or; the later five-minute nullish default is applied to that
already defaulted value, exactly as in the source, where it can never
fire. -/
def getSessionSigsTail (signDetached : String → SessionTemplate → String)
    (sessionKey : SessionKeyPair)
    (resourceAbilityRequests : List ResourceAbility)
    (capabilityAuthSigs : List AuthSigM)
    (capacityDelegationAuthSig : Option AuthSigM)
    (authSig : AuthSigM)
    (paramsExpiration : Option Nat)
    (now nowAtSigning issuedAt : Nat)
    (nodes : List String) : List (String × SessionSig) :=
  let expiration := paramsExpiration.getD (getExpiration now)
  let sessionExpiration := (some expiration).getD (nowAtSigning + fiveMinutesMs)
  buildSessionSigs signDetached sessionKey resourceAbilityRequests
    (composeCapabilities capabilityAuthSigs capacityDelegationAuthSig authSig)
    issuedAt sessionExpiration nodes

/-- Error kinds raised by the embedded operations. -/
inductive LitErrKind where
  | paramsMissing
  | parseError
  | emptySignedDataList
  | popMissing
  | notEnoughShares
deriving DecidableEq, Repr

/-- The fresh-acquisition path of #getWalletSig (flow 1): use the caller
authNeededCallback when present, else the configured defaultAuthCallback,
else fail with a ParamsMissing error.  Callbacks are modelled by the
AuthSig they would return (none meaning the callback is not provided).
The returned flag records whether a write-back to the store was
attempted. -/
def getWalletSigFresh (authNeededCallback defaultAuthCallback : Option AuthSigM) :
    Except LitErrKind (Option AuthSigM × Bool) :=
  match authNeededCallback with
  | some s => Except.ok (some s, true)
  | none =>
    match defaultAuthCallback with
    | some s => Except.ok (some s, true)
    | none => Except.error LitErrKind.paramsMissing

/-- Embeds #getWalletSig.  The stored value is the raw string read from
the lit-wallet-signature slot (none when the read erred or the slot is
missing), parseA is JSON.parse restricted to AuthSig (none when parsing
throws), and writeOk tells whether the write-back to the store would
succeed; a failed write only logs, so the result does not depend on it.
The first component of the result is the AuthSig the function returns,
with none standing for the undefined value produced by the non-null
assertion on the parse-failure path. -/
def getWalletSig (parseA : String → Option AuthSigM)
    (stored : Option String)
    (authNeededCallback defaultAuthCallback : Option AuthSigM)
    (writeOk : Bool) : Except LitErrKind (Option AuthSigM × Bool) :=
  match stored with
  | none => getWalletSigFresh authNeededCallback defaultAuthCallback
  | some raw =>
    if raw = "" then getWalletSigFresh authNeededCallback defaultAuthCallback
    else
      match parseA raw with
      | some s => Except.ok (some s, false)
      | none => Except.ok (none, false)

/-- Embeds getSessionKey.  The stored value is the raw string read from
the lit-session-key slot, parseK is JSON.parse restricted to
SessionKeyPair (none when parsing throws), and freshKey is the pair that
generateSessionKeyPair would produce.  The flag records whether a fresh
key was generated; a parse failure propagates as an error because the
source calls JSON.parse outside any try block there. -/
def getSessionKey (parseK : String → Option SessionKeyPair)
    (freshKey : SessionKeyPair)
    (stored : Option String) : Except LitErrKind (SessionKeyPair × Bool) :=
  match stored with
  | none => Except.ok (freshKey, true)
  | some raw =>
    if raw = "" then Except.ok (freshKey, true)
    else
      match parseK raw with
      | some k => Except.ok (k, false)
      | none => Except.error LitErrKind.parseError

/-- The signatureShare object of a BLS node response. -/
structure BlsSigShare where
  ProofOfPossession : String
deriving DecidableEq, Repr

/-- A node response on the signSessionKey path (BlsResponseData), with
every field optional so that absent fields can be represented. -/
structure BlsResp where
  signatureShare : Option BlsSigShare
  curveType : Option String
  shareIndex : Option Nat
  siweMessage : Option String
  dataSigned : Option String
  blsRootPubkey : Option String
  result : Option String
deriving DecidableEq, Repr

/-- JavaScript falsiness of an optional string field: absent or empty. -/
def strFalsy (o : Option String) : Bool := o.getD "" == ""

/-- JavaScript falsiness of an optional numeric field: absent or zero. -/
def natFalsy (o : Option Nat) : Bool := o.getD 0 == 0

/-- The required-field check of signSessionKey: each of signatureShare,
curveType, shareIndex, siweMessage, dataSigned, blsRootPubkey and result
must be present and truthy (an object is truthy whenever present). -/
def passesRequiredFields (d : BlsResp) : Bool :=
  d.signatureShare.isSome && !strFalsy d.curveType && !natFalsy d.shareIndex
    && !strFalsy d.siweMessage && !strFalsy d.dataSigned
    && !strFalsy d.blsRootPubkey && !strFalsy d.result

/-- The ProofOfPossession carried by a response, empty when absent. -/
def popOf (d : BlsResp) : String :=
  (d.signatureShare.getD ⟨""⟩).ProofOfPossession

/-- Embeds the validation map of signSessionKey: responses failing the
required-field check are dropped (mapped to null and filtered out); a
response passing the check whose signatureShare lacks a truthy
ProofOfPossession makes the whole map throw. -/
def validateShares : List BlsResp → Except LitErrKind (List BlsResp)
  | [] => Except.ok []
  | d :: rest =>
    if passesRequiredFields d then
      if popOf d = "" then Except.error LitErrKind.popMissing
      else
        match validateShares rest with
        | Except.ok v => Except.ok (d :: v)
        | Except.error e => Except.error e
    else validateShares rest

/-- Embeds the share-validation stage of signSessionKey: the empty
signedDataList check, the required-field filtering with the
ProofOfPossession throw, and the minNodeCount shortfall check. -/
def signSessionKeyValidate (l : List BlsResp) (minNodeCount : Nat) :
    Except LitErrKind (List BlsResp) :=
  if l.length = 0 then Except.error LitErrKind.emptySignedDataList
  else
    match validateShares l with
    | Except.error e => Except.error e
    | Except.ok v =>
      if v.length < minNodeCount then Except.error LitErrKind.notEnoughShares
      else Except.ok v

/-- A wallet AuthSig value used by concrete witnesses below. -/
def asig0 : AuthSigM :=
  { sig := "0xsig", derivedVia := "web3.eth.personal.sign"
    signedMessage := "msg", address := "0xabc", algo := none }

/-- A complete BLS response with a present ProofOfPossession. -/
def blsRespOk : BlsResp :=
  { signatureShare := some ⟨"pop-1"⟩, curveType := some "BLS"
    shareIndex := some 1, siweMessage := some "siwe"
    dataSigned := some "data", blsRootPubkey := some "root"
    result := some "success" }

/-- A BLS response whose seven required fields are all present and truthy
but whose signatureShare carries an empty ProofOfPossession. -/
def blsRespNoPop : BlsResp :=
  { signatureShare := some ⟨""⟩, curveType := some "BLS"
    shareIndex := some 2, siweMessage := some "siwe"
    dataSigned := some "data", blsRootPubkey := some "root"
    result := some "success" }

/-- A concrete detached-signing function for witnesses. -/
def wSignFun : String → SessionTemplate → String := fun _ _ => "SIG"

/-- A concrete session key pair for witnesses. -/
def wSessionKey : SessionKeyPair := ⟨"pk", "sk"⟩

/-- A concrete produced session signature map used by witnesses. -/
def wList : List (String × SessionSig) :=
  getSessionSigsTail wSignFun wSessionKey [] [] none asig0 (some 9) 0 0 3
    ["n1", "n2"]

/-- The first entry of wList, written out explicitly. -/
def wEntry : String × SessionSig :=
  ("n1",
    { sig := "SIG", derivedVia := "litSessionSignViaNacl"
      signedMessage :=
        { sessionKey := "pk", resourceAbilityRequests := []
          capabilities := [asig0], issuedAt := 3, expiration := 9
          nodeAddress := "n1" }
      address := "pk", algo := "ed25519" })

end Lit

namespace Lit

/-- Claim C1: the re-sign predicate returns true iff at least one of the four
staleness conditions holds: signature validation fails, the uri differs
from the session key uri, the resources list is missing or empty, or the
capability object decoded from the first resource fails
verifyCapabilitiesForResource for some required pair. -/
theorem checkNeedToResignSessionKey_iff
    (parseSiwe : String → SiweParsedMsg)
    (validateOk : SiweParsedMsg → String → Bool)
    (decodeCap : String → RecapObj)
    (authSig : AuthSigM) (sessionKeyUri : String)
    (reqs : List ResourceAbility) :
    checkNeedToResignSessionKey parseSiwe validateOk decodeCap authSig
        sessionKeyUri reqs = true ↔
      (validateOk (parseSiwe authSig.signedMessage) authSig.sig = false
        ∨ (parseSiwe authSig.signedMessage).uri ≠ sessionKeyUri
        ∨ (parseSiwe authSig.signedMessage).resources = none
        ∨ (parseSiwe authSig.signedMessage).resources = some []
        ∨ ∃ r0 rest, (parseSiwe authSig.signedMessage).resources = some (r0 :: rest)
            ∧ ∃ ra ∈ reqs,
                (decodeCap r0).verifyCapabilitiesForResource ra.resource ra.ability
                  = false) := by
  unfold checkNeedToResignSessionKey
  set m := parseSiwe authSig.signedMessage with hm
  rcases hv : validateOk m authSig.sig with _ | _
  · simp [hv]
  · rcases hres : m.resources with _ | (_ | ⟨r0, rest⟩)
    · by_cases hu : m.uri = sessionKeyUri <;> simp [hv, hu, hres]
    · by_cases hu : m.uri = sessionKeyUri <;> simp [hv, hu, hres]
    · by_cases hu : m.uri = sessionKeyUri <;>
        simp [hv, hu, hres, List.any_eq_true]

/-- Claim C2 counterexample: the capability object that getSessionSigs generates
from the requested resources does not grant wildcard abilities; at the
concrete resource list containing the PKP wildcard resource, the claimed
verifyCapabilitiesForResource check is false, not true. -/
theorem generateWildcards_counterexample :
    (generateSessionCapabilityObjectWithWildcards
        ["lit-pkp://*"]).verifyCapabilitiesForResource
      "lit-pkp://*" LitAbility.PKPSigning = false := by
  rfl

/-- Claim C2 amended: the capability object generated by the instance method
generateSessionCapabilityObjectWithWildcards carries no grants at all
(the wildcard loop is disabled because addAllCapabilities defaults to
false), so verifyCapabilitiesForResource is false for every resource and
every ability. -/
theorem generateWildcards_amended (litResources : List String)
    (r : String) (a : LitAbility) :
    (generateSessionCapabilityObjectWithWildcards
        litResources).verifyCapabilitiesForResource r a = false := by
  rfl

/-- Claim C3 (code bug): what runOnTargetedNodes hands to _sendCommandToNode is
the bare caller params, which never carries the url-specific session
signature, and it differs from the composed reqBody at a concrete input
where the sessionSigs map has an entry for the selected url. -/
theorem runOnTargetedNodes_sends_params_not_reqBody :
    (∀ (p : TargetedParams) (url : String),
        (runOnTargetedNodesSentData p url).authSig = none)
    ∧ runOnTargetedNodesSentData ⟨"X", 1, [("node1", "sig1")]⟩ "node1"
        ≠ runOnTargetedNodesReqBody ⟨"X", 1, [("node1", "sig1")]⟩ "node1" := by
  refine ⟨fun p url => rfl, ?_⟩
  decide

/-- With a positive url count the extra bound check of the implemented
loop never fires, so the implemented selection agrees step by step with
the specified one. -/
theorem selectLoop_code_eq_spec (h : Nat → Nat) (len k : Nat) (hlen : 0 < len) :
    ∀ fuel c acc,
      selectLoopCode h len k fuel c acc = selectLoopSpec h len k fuel c acc := by
  intro fuel
  induction fuel with
  | zero => intro c acc; rfl
  | succ n ih =>
    intro c acc
    have hmod : h c % len < len := Nat.mod_lt _ hlen
    simp only [selectLoopCode, selectLoopSpec, hmod, and_true]
    by_cases hlt : acc.length < k
    · simp only [if_pos hlt]
      exact ih (c + 1) _
    · simp only [if_neg hlt]

/-- The selection loop preserves distinctness of the accumulator. -/
theorem selectLoopCode_nodup (h : Nat → Nat) (len k : Nat) :
    ∀ fuel c acc, acc.Nodup → (selectLoopCode h len k fuel c acc).Nodup := by
  intro fuel
  induction fuel with
  | zero => intro c acc ha; exact ha
  | succ n ih =>
    intro c acc ha
    simp only [selectLoopCode]
    by_cases hlt : acc.length < k
    · simp only [if_pos hlt]
      by_cases hnew : h c % len ∉ acc ∧ h c % len < len
      · simp only [if_pos hnew]
        refine ih (c + 1) _ ?_
        rw [← List.concat_eq_append]
        exact ha.concat hnew.1
      · simp only [if_neg hnew]
        exact ih (c + 1) _ ha
    · simp only [if_neg hlt]
      exact ha

/-- Every index the selection loop adds is below the url count. -/
theorem selectLoopCode_mem_lt (h : Nat → Nat) (len k : Nat) :
    ∀ fuel c acc, (∀ i ∈ acc, i < len) →
      ∀ i ∈ selectLoopCode h len k fuel c acc, i < len := by
  intro fuel
  induction fuel with
  | zero => intro c acc ha; exact ha
  | succ n ih =>
    intro c acc ha
    simp only [selectLoopCode]
    by_cases hlt : acc.length < k
    · simp only [if_pos hlt]
      by_cases hnew : h c % len ∉ acc ∧ h c % len < len
      · simp only [if_pos hnew]
        refine ih (c + 1) _ ?_
        intro i hi
        rcases List.mem_append.1 hi with hi | hi
        · exact ha i hi
        · rcases List.mem_singleton.1 hi with rfl
          exact hnew.2
      · simp only [if_neg hnew]
        exact ih (c + 1) _ ha
    · simp only [if_neg hlt]
      exact ha

/-- The selection loop never grows the accumulator past k indices. -/
theorem selectLoopCode_length_le (h : Nat → Nat) (len k : Nat) :
    ∀ fuel c acc, acc.length ≤ k →
      (selectLoopCode h len k fuel c acc).length ≤ k := by
  intro fuel
  induction fuel with
  | zero => intro c acc ha; exact ha
  | succ n ih =>
    intro c acc ha
    simp only [selectLoopCode]
    by_cases hlt : acc.length < k
    · simp only [if_pos hlt]
      by_cases hnew : h c % len ∉ acc ∧ h c % len < len
      · simp only [if_pos hnew]
        refine ih (c + 1) _ ?_
        simp only [List.length_append, List.length_singleton]
        omega
      · simp only [if_neg hnew]
        exact ih (c + 1) _ ha
    · simp only [if_neg hlt]
      exact ha

/-- Claim C4: for a fixed hash pipeline (hence fixed code payload and ipfsId),
a fixed url count and a fixed target range, the implemented node-index
selection computes exactly the indices of the specified algorithm, they
are pairwise distinct, each is a valid index, and at most k are kept; the
selection is a pure function of these inputs, so two runs with the same
inputs select the same indices. -/
theorem runOnTargetedNodes_selection_correct (h : Nat → Nat)
    (len k fuel c : Nat) (hlen : 0 < len) :
    selectLoopCode h len k fuel c [] = selectLoopSpec h len k fuel c []
    ∧ (selectLoopCode h len k fuel c []).Nodup
    ∧ (∀ i ∈ selectLoopCode h len k fuel c [], i < len)
    ∧ (selectLoopCode h len k fuel c []).length ≤ k :=
  ⟨selectLoop_code_eq_spec h len k hlen fuel c [],
   selectLoopCode_nodup h len k fuel c [] List.nodup_nil,
   selectLoopCode_mem_lt h len k fuel c [] (by intro i hi; cases hi),
   selectLoopCode_length_le h len k fuel c [] (Nat.zero_le k)⟩

/-- Claim C4 witness: the selection theorem applied at a concrete hash
function, five urls, target range three and enough fuel. -/
theorem runOnTargetedNodes_selection_correct_witness :
    0 < 5
    ∧ (selectLoopCode (fun c => c * c + 3) 5 3 16 0 []
          = selectLoopSpec (fun c => c * c + 3) 5 3 16 0 []
        ∧ (selectLoopCode (fun c => c * c + 3) 5 3 16 0 []).Nodup
        ∧ (∀ i ∈ selectLoopCode (fun c => c * c + 3) 5 3 16 0 [], i < 5)
        ∧ (selectLoopCode (fun c => c * c + 3) 5 3 16 0 []).length ≤ 3) :=
  ⟨by decide,
   runOnTargetedNodes_selection_correct (fun c => c * c + 3) 5 3 16 0 (by decide)⟩

/-- Claim C5 (code bug): when the caller supplies no expiration, the expiration
written into every per-node template is the 24-hour getExpiration default,
because the five-minute nullish default is applied to a value that the
logical-or already made non-null; 24 hours is not 5 minutes. -/
theorem getSessionSigs_default_expiration
    (signDetached : String → SessionTemplate → String)
    (sk : SessionKeyPair) (reqs : List ResourceAbility)
    (caps : List AuthSigM) (cds : Option AuthSigM) (authSig : AuthSigM)
    (now issuedAt : Nat) (nodes : List String) :
    ((getSessionSigsTail signDetached sk reqs caps cds authSig none now now
          issuedAt nodes).map fun e => e.2.signedMessage.expiration)
      = nodes.map (fun _ => now + 1000 * 60 * 60 * 24)
    ∧ now + 1000 * 60 * 60 * 24 ≠ now + fiveMinutesMs := by
  constructor
  · simp [getSessionSigsTail, buildSessionSigs, getExpiration, List.map_map,
      Function.comp_def]
  · simp [fiveMinutesMs]

/-- The serialised per-node template records no top-level uri key. -/
theorem lookupKey_uri_of_template (t : SessionTemplate) :
    JVal.lookupKey (jsonOfTemplate t) "uri" = none := rfl

/-- Claim C8 counterexample: at a concrete run of the session signing tail, the
produced signature has address pk, but its signedMessage records no uri
at all, so the uri is not some string equal to the SessionKeyUri of the
address. -/
theorem sessionSig_uri_counterexample :
    ((getSessionSigsTail wSignFun wSessionKey [] [] none asig0 (some 9) 0 0 3
          ["n1"]).map fun e =>
        (JVal.lookupKey (jsonOfTemplate e.2.signedMessage) "uri", e.2.address))
      = [(none, "pk")]
    ∧ some (JVal.str ("lit:session:" ++ "pk")) ≠ (none : Option JVal) := by
  refine ⟨rfl, by simp⟩

/-- Claim C8 amended: a session signature signedMessage records no uri key;
instead its sessionKey field equals the signature address, which is the
session public key, and the SessionKeyUri of that address is the string
lit:session: followed by it. -/
theorem sessionSig_uri_amended
    (signDetached : String → SessionTemplate → String)
    (sk : SessionKeyPair) (reqs : List ResourceAbility)
    (caps : List AuthSigM) (cds : Option AuthSigM) (authSig : AuthSigM)
    (pexp : Option Nat) (now now2 issuedAt : Nat) (nodes : List String) :
    ((getSessionSigsTail signDetached sk reqs caps cds authSig pexp now now2
          issuedAt nodes).map fun e =>
        JVal.lookupKey (jsonOfTemplate e.2.signedMessage) "uri")
      = nodes.map (fun _ => none)
    ∧ ((getSessionSigsTail signDetached sk reqs caps cds authSig pexp now now2
          issuedAt nodes).map fun e =>
        (e.2.signedMessage.sessionKey, e.2.address))
      = nodes.map (fun _ => (sk.publicKey, sk.publicKey))
    ∧ getSessionKeyUri sk.publicKey = "lit:session:" ++ sk.publicKey := by
  refine ⟨?_, ?_, rfl⟩
  · induction nodes with
    | nil => rfl
    | cons n ns ih =>
      simp only [getSessionSigsTail, buildSessionSigs, List.map_cons] at ih ⊢
      rw [lookupKey_uri_of_template, ih]
  · induction nodes with
    | nil => rfl
    | cons n ns ih =>
      simp only [getSessionSigsTail, buildSessionSigs, List.map_cons] at ih ⊢
      rw [ih]

/-- Claim C10: every entry of the produced SessionSigsMap has the session
public key as its address and as its template sessionKey, carries its own
map key as the template nodeAddress, and any two entries sign templates
that agree on every field except nodeAddress. -/
theorem getSessionSigs_entries_uniform
    (signDetached : String → SessionTemplate → String)
    (sk : SessionKeyPair) (reqs : List ResourceAbility)
    (caps : List AuthSigM) (cds : Option AuthSigM) (authSig : AuthSigM)
    (pexp : Option Nat) (now now2 issuedAt : Nat) (nodes : List String) :
    ∀ p ∈ getSessionSigsTail signDetached sk reqs caps cds authSig pexp now
        now2 issuedAt nodes,
      p.2.address = sk.publicKey
      ∧ p.2.signedMessage.sessionKey = sk.publicKey
      ∧ p.2.signedMessage.nodeAddress = p.1
      ∧ ∀ q ∈ getSessionSigsTail signDetached sk reqs caps cds authSig pexp
            now now2 issuedAt nodes,
          { p.2.signedMessage with nodeAddress := q.1 } = q.2.signedMessage := by
  intro p hp
  simp only [getSessionSigsTail, buildSessionSigs, List.mem_map] at hp
  obtain ⟨n, hn, rfl⟩ := hp
  refine ⟨rfl, rfl, rfl, ?_⟩
  intro q hq
  simp only [getSessionSigsTail, buildSessionSigs, List.mem_map] at hq
  obtain ⟨m, hm, rfl⟩ := hq
  rfl

/-- Claim C10 witness: the uniformity theorem applied to the first entry of a
concrete two-node run. -/
theorem getSessionSigs_entries_uniform_witness :
    wEntry.2.address = wSessionKey.publicKey
    ∧ wEntry.2.signedMessage.sessionKey = wSessionKey.publicKey
    ∧ wEntry.2.signedMessage.nodeAddress = wEntry.1
    ∧ ∀ q ∈ wList,
        { wEntry.2.signedMessage with nodeAddress := q.1 } = q.2.signedMessage :=
  getSessionSigs_entries_uniform wSignFun wSessionKey [] [] none asig0 (some 9)
    0 0 3 ["n1", "n2"] wEntry (by decide)

/-- Claim C6 (code bug): a stored wallet signature that fails JSON parsing
makes #getWalletSig return no AuthSig at all without invoking the
provided authNeededCallback, while an absent stored value does invoke it;
the default callback is used when the caller one is absent, ParamsMissing
is raised when both are absent, and the result never depends on whether
the write-back succeeds. -/
theorem getWalletSig_unparsable_bug :
    getWalletSig (fun _ => none) (some "not-json") (some asig0) none true
      = Except.ok (none, false)
    ∧ getWalletSig (fun _ => none) none (some asig0) none true
      = Except.ok (some asig0, true)
    ∧ getWalletSig (fun _ => none) none none (some asig0) true
      = Except.ok (some asig0, true)
    ∧ getWalletSig (fun _ => none) none none none true
      = Except.error LitErrKind.paramsMissing
    ∧ ∀ w : Bool,
        getWalletSig (fun _ => none) (some "not-json") (some asig0) none w
          = getWalletSig (fun _ => none) (some "not-json") (some asig0) none
              true :=
  ⟨rfl, rfl, rfl, rfl, fun _ => rfl⟩

/-- Claim C7 (code bug): getSessionKey regenerates on an absent or empty stored
value but fails with a parse error on a stored value that JSON.parse
rejects, instead of regenerating. -/
theorem getSessionKey_parse_error_bug :
    getSessionKey (fun _ => none) ⟨"pub", "sec"⟩ (some "not-json")
      = Except.error LitErrKind.parseError
    ∧ getSessionKey (fun _ => none) ⟨"pub", "sec"⟩ none
      = Except.ok (⟨"pub", "sec"⟩, true)
    ∧ getSessionKey (fun _ => none) ⟨"pub", "sec"⟩ (some "")
      = Except.ok (⟨"pub", "sec"⟩, true) :=
  ⟨rfl, rfl, rfl⟩

/-- Claim C9 counterexample: with minNodeCount one and two responses that both
carry every required field, one of them having an empty ProofOfPossession
inside its signatureShare, the remaining share count is at least the
minimum and yet the call fails, against the claimed equivalence. -/
theorem signSessionKey_minNodeCount_counterexample :
    1 ≤ (([blsRespOk, blsRespNoPop].filter fun d =>
        passesRequiredFields d)).length
    ∧ signSessionKeyValidate [blsRespOk, blsRespNoPop] 1
        = Except.error LitErrKind.popMissing := by
  refine ⟨by decide, rfl⟩

/-- When every response passing the required-field check carries a
non-empty ProofOfPossession, the validation map returns exactly the
passing responses, in order. -/
theorem validateShares_eq_filter (l : List BlsResp)
    (hpop : ∀ d ∈ l, passesRequiredFields d = true → popOf d ≠ "") :
    validateShares l = Except.ok (l.filter fun d => passesRequiredFields d) := by
  induction l with
  | nil => rfl
  | cons d rest ih =>
    have hrest : ∀ x ∈ rest, passesRequiredFields x = true → popOf x ≠ "" :=
      fun x hx => hpop x (List.mem_cons_of_mem _ hx)
    by_cases hd : passesRequiredFields d
    · have hpd : ¬ popOf d = "" := hpop d (List.mem_cons_self _ _) hd
      simp only [validateShares, if_pos hd, if_neg hpd, ih hrest,
        List.filter_cons, hd, if_true]
    · simp only [validateShares, ih hrest, List.filter_cons, hd]
      simp

/-- Claim C9 amended: on a non-empty response list in which every response
passing the required-field check also carries a ProofOfPossession, the
responses missing a required field are dropped and the call succeeds with
exactly the passing responses iff their number reaches minNodeCount, and
otherwise fails with the shortfall error. -/
theorem signSessionKey_shares_amended (l : List BlsResp) (minNodeCount : Nat)
    (hne : l ≠ [])
    (hpop : ∀ d ∈ l, passesRequiredFields d = true → popOf d ≠ "") :
    signSessionKeyValidate l minNodeCount =
      if minNodeCount ≤ (l.filter fun d => passesRequiredFields d).length
      then Except.ok (l.filter fun d => passesRequiredFields d)
      else Except.error LitErrKind.notEnoughShares := by
  have hlen : ¬ l.length = 0 := by simpa [List.length_eq_zero] using hne
  simp only [signSessionKeyValidate, if_neg hlen,
    validateShares_eq_filter l hpop]
  by_cases hm : (l.filter fun d => passesRequiredFields d).length < minNodeCount
  · rw [if_pos hm, if_neg (by omega)]
  · rw [if_neg hm, if_pos (by omega)]

/-- Claim C9 witness: the amended theorem applied to a single complete share
with minNodeCount one. -/
theorem signSessionKey_shares_amended_witness :
    signSessionKeyValidate [blsRespOk] 1 =
      if 1 ≤ ([blsRespOk].filter fun d => passesRequiredFields d).length
      then Except.ok ([blsRespOk].filter fun d => passesRequiredFields d)
      else Except.error LitErrKind.notEnoughShares :=
  signSessionKey_shares_amended [blsRespOk] 1 (by decide) (by decide)

end Lit
